import Mathlib

/-!
Verification of the real-time voice pipeline
(`src/agents/voice/arabic-voice-config.ts`, class `RealtimeStreamingAgent`,
and the VAD calibration of `src/agents/framework/enhanced-agent.ts`).

JS strings are modelled as `List Char` (all texts involved live in the BMP,
so one `Char` corresponds to one UTF-16 code unit, matching `String.length`
and per-character regex semantics of the source).  Floating point energy and
speed values are modelled as rationals; the only float comparisons the
claims depend on are against the exact binary constants 0.75, 2, 1.5 and the
decimal constants 0.01/0.02/0.3/0.85, which are modelled as the
corresponding rationals (the comparisons relevant to the claims are far from
the float rounding error of these constants).
-/

namespace RealtimeVoice

/-! ## JS string primitives -/

/-- The character class `\s` of JavaScript regular expressions
(ECMA-262 WhiteSpace ∪ LineTerminator). -/
def isJsWs (c : Char) : Bool :=
  c.toNat = 0x9 || c.toNat = 0xA || c.toNat = 0xB || c.toNat = 0xC ||
  c.toNat = 0xD || c.toNat = 0x20 || c.toNat = 0xA0 || c.toNat = 0x1680 ||
  (0x2000 ≤ c.toNat && c.toNat ≤ 0x200A) || c.toNat = 0x2028 ||
  c.toNat = 0x2029 || c.toNat = 0x202F || c.toNat = 0x205F ||
  c.toNat = 0x3000 || c.toNat = 0xFEFF

/-- `String.prototype.trim`: remove leading and trailing `\s` characters. -/
def jsTrim (l : List Char) : List Char :=
  ((l.dropWhile isJsWs).reverse.dropWhile isJsWs).reverse

/-- Helper for `normalizeSpaces`: `inRun` records whether the previous
input character was whitespace (i.e. we are inside a `\s+` run that has
already been replaced by a single space). -/
def normalizeSpacesAux : Bool → List Char → List Char
  | _, [] => []
  | inRun, c :: cs =>
    if isJsWs c then
      if inRun then normalizeSpacesAux true cs
      else ' ' :: normalizeSpacesAux true cs
    else c :: normalizeSpacesAux false cs

/-- `text.replace(/\s+/g, ' ')`: each maximal whitespace run becomes one space. -/
def normalizeSpaces (l : List Char) : List Char :=
  normalizeSpacesAux false l

/-! ## Data model of `RealtimeStreamingAgent`

Only the behavioural fields of `StreamingVoiceConfig` are modelled; the
inert descriptive fields (`llmModel`, `sttModel`, `temperature`,
`systemPrompt`) are passed unchanged to the backends and never inspected
by the code the claims are about. -/

/-- An LLM/STT provider (`'openai' | 'groq'`). -/
inductive Provider where
  | openai
  | groq
deriving DecidableEq, Repr

/-- A TTS voice (`'alloy' | 'echo' | 'fable' | 'onyx' | 'nova' | 'shimmer'`). -/
inductive Voice where
  | alloy
  | echo
  | fable
  | onyx
  | nova
  | shimmer
deriving DecidableEq, Repr

/-- The behavioural part of `StreamingVoiceConfig`. -/
structure Config where
  llmProvider : Provider
  sttProvider : Provider
  ttsVoice : Voice
  ttsSpeed : ℚ
  streamResponse : Bool
deriving DecidableEq, Repr

/-- The constructor defaults of `RealtimeStreamingAgent` (no overrides). -/
def defaultConfig : Config :=
  { llmProvider := Provider.groq
    sttProvider := Provider.openai
    ttsVoice := Voice.nova
    ttsSpeed := 1
    streamResponse := true }

/-- A chat role of a conversation turn. -/
inductive Role where
  | user
  | assistant
deriving DecidableEq, Repr

/-- One element of `conversationHistory`: `{role, content}`. -/
structure Turn where
  role : Role
  content : List Char
deriving DecidableEq, Repr

/-- An event emitted by the agent (`this.emit(...)`).  Payloads are reduced
to the text argument; binary audio data and timing numbers carry no
information the claims are about. -/
inductive Ev where
  | transcriptEv (text : List Char)
  | partialEv (content : List Char)
  | responseEv (text : List Char)
  | audioEv (sourceText : List Char)
  | completeEv
  | errorEv (message : List Char)
  | interruptedEv
deriving DecidableEq, Repr

/-- Message of the `error` emit in `speechToText`'s catch block. -/
def sttFailMsg : List Char := "Speech recognition failed. Please try again.".data

/-- Message of the `error` emit for an empty transcript in `processAudioFile`. -/
def noSpeechMsg : List Char := "No speech detected. Please speak clearly.".data

/-! ## Conversation history operations -/

/-- The trimming step of `getLLMResponse`:
`if (history.length > 20) history = history.slice(-20)`. -/
def trimHistory (h : List Turn) : List Turn :=
  if h.length > 20 then h.drop (h.length - 20) else h

/-- The effect of `getLLMResponse(input)` on `conversationHistory` when the
backend answers `response`: push the user turn, push the assistant turn,
then trim to the last 20. -/
def getLLMResponseHist (h : List Turn) (input response : List Char) : List Turn :=
  trimHistory ((h ++ [⟨Role.user, input⟩]) ++ [⟨Role.assistant, response⟩])

/-! ## Language detection and TTS adapter -/

/-- Membership in the character class of the Arabic pattern used by
`detectLanguage` and `streamTTS`:
`[؀-ۿݐ-ݿࢠ-ࣿﭐ-﷿ﹰ-﻿]`. -/
def isArabicChar (c : Char) : Bool :=
  (0x0600 ≤ c.toNat && c.toNat ≤ 0x06FF) ||
  (0x0750 ≤ c.toNat && c.toNat ≤ 0x077F) ||
  (0x08A0 ≤ c.toNat && c.toNat ≤ 0x08FF) ||
  (0xFB50 ≤ c.toNat && c.toNat ≤ 0xFDFF) ||
  (0xFE70 ≤ c.toNat && c.toNat ≤ 0xFEFF)

/-- `arabicPattern.test(text)`: does the text contain any Arabic-script
character? -/
def hasArabicText (t : List Char) : Bool :=
  t.any isArabicChar

/-- Detected language. -/
inductive Lang where
  | ar
  | en
deriving DecidableEq, Repr

/-- `detectLanguage(text)`: Arabic iff some Arabic character occurs and the
Arabic character count exceeds 30% of the text length (the float literal
`0.3` is modelled as `3/10`; rational division by zero yields `0`, matching
the falsity of the JS `NaN > 0.3` comparison for empty text). -/
def detectLanguage (t : List Char) : Lang :=
  let arabicChars := (t.filter isArabicChar).length
  if 0 < arabicChars ∧ (3 : ℚ)/10 < (arabicChars : ℚ) / (t.length : ℚ) then
    Lang.ar
  else
    Lang.en

/-- The voice selected by `streamTTS`:
`hasArabic ? 'nova' : this.config.ttsVoice`. -/
def streamTTSVoice (cfg : Config) (t : List Char) : Voice :=
  if hasArabicText t then Voice.nova else cfg.ttsVoice

/-- The speed selected by `streamTTS`:
`hasArabic ? 0.85 : this.config.ttsSpeed`. -/
def streamTTSSpeed (cfg : Config) (t : List Char) : ℚ :=
  if hasArabicText t then 85/100 else cfg.ttsSpeed

/-- `text.replace(/[‪-‮]/g, '')`: strip directional marks. -/
def removeDirMarks (t : List Char) : List Char :=
  t.filter (fun c => !(0x202A ≤ c.toNat && c.toNat ≤ 0x202E))

/-- `processedText.match(/[.!?،؟]$/)` of `streamTTS`: does the text end in
one of `.` `!` `?` U+060C (Arabic comma) U+061F (Arabic question mark)? -/
def endsInTerminalTTS (t : List Char) : Bool :=
  match t.getLast? with
  | some c => c = '.' || c = '!' || c = '?' || c.toNat = 0x060C || c.toNat = 0x061F
  | none => false

/-- The text handed to the TTS backend by `streamTTS`: when the text
contains Arabic, trim, strip directional marks, collapse whitespace, wrap
in U+202B/U+202C, and append a '.' when the (already wrapped) text does
not end in terminal punctuation. -/
def streamTTSProcessText (t : List Char) : List Char :=
  if hasArabicText t then
    let p := normalizeSpaces (removeDirMarks (jsTrim t))
    let p := Char.ofNat 0x202B :: (p ++ [Char.ofNat 0x202C])
    if endsInTerminalTTS p then p else p ++ ['.']
  else t

/-- The events emitted by one `streamTTS(text)` call on the success path:
nothing for a whitespace-only text (`if (!text.trim()) return`), otherwise
one `audio` event carrying the source text. -/
def streamTTSEvents (text : List Char) : List Ev :=
  if jsTrim text = [] then [] else [Ev.audioEv text]

/-! ## Streaming LLM response (`streamOpenAIResponse` / `streamGroqResponse`)

Each loop iteration receives one `chunk.choices[0]?.delta?.content` string,
extends `fullResponse` and `buffer`, emits a `partial` event, and — when the
buffer matches `/[.!?]\s/` — awaits `streamTTS(buffer)` and resets the
buffer.  A trailing nonempty buffer is synthesized after the loop; finally
the assistant turn is pushed (without trimming) and `response` is emitted. -/

/-- Sentence terminator characters of the `/[.!?]\s/` pattern. -/
def isTerminator (c : Char) : Bool :=
  c = '.' || c = '!' || c = '?'

/-- `buffer.match(/[.!?]\s/)`: some terminator is immediately followed by a
whitespace character. -/
def hasBoundary : List Char → Bool
  | c1 :: c2 :: rest => (isTerminator c1 && isJsWs c2) || hasBoundary (c2 :: rest)
  | _ => false

/-- The chunk loop of `streamOpenAIResponse`/`streamGroqResponse`, returning
the accumulated `fullResponse` and the events emitted inside the loop and by
the trailing-buffer flush (`response` is appended by the caller). -/
def runStream (full buffer : List Char) : List (List Char) → List Char × List Ev
  | [] => (full, if buffer ≠ [] then streamTTSEvents buffer else [])
  | c :: cs =>
    let buffer2 := buffer ++ c
    if hasBoundary buffer2 then
      let r := runStream (full ++ c) [] cs
      (r.1, Ev.partialEv c :: (streamTTSEvents buffer2 ++ r.2))
    else
      let r := runStream (full ++ c) buffer2 cs
      (r.1, Ev.partialEv c :: r.2)

/-- `streamOpenAIResponse()`: run the chunk loop, push the assistant turn
(no trimming) and emit `response` with the full text. -/
def streamOpenAIResponseRun (h : List Turn) (chunks : List (List Char)) :
    List Turn × List Ev :=
  let r := runStream [] [] chunks
  (h ++ [⟨Role.assistant, r.1⟩], r.2 ++ [Ev.responseEv r.1])

/-- `streamGroqResponse()`: identical control flow to the OpenAI variant. -/
def streamGroqResponseRun (h : List Turn) (chunks : List (List Char)) :
    List Turn × List Ev :=
  let r := runStream [] [] chunks
  (h ++ [⟨Role.assistant, r.1⟩], r.2 ++ [Ev.responseEv r.1])

/-- `streamLLMResponse(input)`: push the user turn, then dispatch on the
configured LLM provider. -/
def streamLLMResponseRun (p : Provider) (h : List Turn) (input : List Char)
    (chunks : List (List Char)) : List Turn × List Ev :=
  let h1 := h ++ [⟨Role.user, input⟩]
  if p = Provider.groq then streamGroqResponseRun h1 chunks
  else streamOpenAIResponseRun h1 chunks

/-- Specification-side sentence segmentation (§4.4 of the spec): the
fragments flushed to synthesis, in the order their sentence boundaries
complete; a whitespace-only fragment is skipped, and a trailing fragment is
flushed at end of stream. -/
def sentenceFlushes (buffer : List Char) : List (List Char) → List (List Char)
  | [] => if jsTrim buffer = [] then [] else [buffer]
  | c :: cs =>
    let b := buffer ++ c
    if hasBoundary b then
      (if jsTrim b = [] then [] else [b]) ++ sentenceFlushes [] cs
    else
      sentenceFlushes b cs

/-- The source texts of the `audio` events of a trace, in emission order. -/
def audioTexts (evs : List Ev) : List (List Char) :=
  evs.filterMap fun e =>
    match e with
    | Ev.audioEv t => some t
    | _ => none

/-! ## Speech-to-text adapter -/

/-- A concrete STT backend. -/
inductive Backend where
  | openai
  | groq
deriving DecidableEq, Repr

/-- Outcome oracle for the external STT backends: `none` models a thrown
backend error, `some t` a result whose `.text` is `t` (the adapters return
`response.text.trim()`). -/
structure SttOracle where
  openaiStt : Option (List Char)
  groqStt : Option (List Char)
deriving DecidableEq, Repr

/-- `openaiSTT(audio)`: one OpenAI attempt; trims the result, propagates
failure.  The second component records the backends attempted. -/
def openaiSTTRun (o : SttOracle) : Option (List Char) × List Backend :=
  match o.openaiStt with
  | some t => (some (jsTrim t), [Backend.openai])
  | none => (none, [Backend.openai])

/-- `groqSTT(audio)`: one Groq attempt; on a thrown Groq error the catch
block falls back to a single `openaiSTT` call. -/
def groqSTTRun (o : SttOracle) : Option (List Char) × List Backend :=
  match o.groqStt with
  | some t => (some (jsTrim t), [Backend.groq])
  | none =>
    let r := openaiSTTRun o
    (r.1, Backend.groq :: r.2)

/-- `speechToText(audio)`: dispatch on the configured provider; a failure
that escapes the chosen path is caught, emits one `error` event and yields
`null`. -/
def speechToTextRun (p : Provider) (o : SttOracle) :
    Option (List Char) × List Backend × List Ev :=
  let r := if p = Provider.groq then groqSTTRun o else openaiSTTRun o
  match r.1 with
  | some t => (some t, r.2, [])
  | none => (none, r.2, [Ev.errorEv sttFailMsg])

/-! ## Agent state and pipeline runs

The agent is single-threaded: `await` expressions are its only suspension
points.  An interleaved `interrupt()` call is modelled by an `InterruptAt`
schedule naming the `await` during which the interrupt handler runs; the
run functions below replay `processAudioFile` / `processBufferedAudio`
exactly as written, applying the interrupt effect at that point. -/

/-- The mutable per-agent state used by the claims
(`detectedLanguage` is write-only in the source and omitted). -/
structure AgentState where
  config : Config
  history : List Turn
  isProcessing : Bool
  audioBuffer : List (List ℚ)
  silenceTimer : Bool
deriving DecidableEq, Repr

/-- A fresh agent with the given config. -/
def initialState (cfg : Config) : AgentState :=
  { config := cfg
    history := []
    isProcessing := false
    audioBuffer := []
    silenceTimer := false }

/-- Oracle for the external calls of one pipeline run. -/
structure RunOracle where
  stt : SttOracle
  llmResponse : List Char
  llmChunks : List (List Char)
deriving DecidableEq, Repr

/-- `interrupt()`: when a run is in flight, stop marking it as processing,
drop the audio buffer and emit one `interrupted` event; otherwise no-op. -/
def interruptStep (s : AgentState) (evs : List Ev) : AgentState × List Ev :=
  if s.isProcessing then
    ({ s with isProcessing := false, audioBuffer := [] }, evs ++ [Ev.interruptedEv])
  else (s, evs)

/-- The `await` boundary at which a concurrent `interrupt()` call runs. -/
inductive InterruptAt where
  | never
  | duringStt
  | duringLlm
  | duringTts
deriving DecidableEq, Repr

/-- Apply the interrupt effect when the schedule names this boundary. -/
def maybeInterrupt (ip here : InterruptAt) (s : AgentState) (evs : List Ev) :
    AgentState × List Ev :=
  if ip = here then interruptStep s evs else (s, evs)

/-- `processAudioFile(audioData)` with an interleaved interrupt schedule.
Mirrors the source: concurrency guard on `isProcessing`; STT; on a null or
whitespace-only transcript emit the no-speech `error` and return; emit
`transcript`; `getLLMResponse` (pushes both turns and trims); emit
`response`; `streamTTS(response)`; emit `complete`; `finally` clears
`isProcessing`.  Nothing between the stages consults the interrupt flag, so
stage results arriving after an interrupt are still emitted. -/
def processAudioFileRun (s0 : AgentState) (o : RunOracle) (ip : InterruptAt) :
    AgentState × List Ev :=
  if s0.isProcessing then (s0, [])
  else
    let s1 := { s0 with isProcessing := true }
    let r2 := maybeInterrupt ip InterruptAt.duringStt s1 []
    let stt := speechToTextRun s0.config.sttProvider o.stt
    let evs3 := r2.2 ++ stt.2.2
    match stt.1 with
    | none =>
      ({ r2.1 with isProcessing := false }, evs3 ++ [Ev.errorEv noSpeechMsg])
    | some t =>
      if jsTrim t = [] then
        ({ r2.1 with isProcessing := false }, evs3 ++ [Ev.errorEv noSpeechMsg])
      else
        let evs4 := evs3 ++ [Ev.transcriptEv t]
        let r5 := maybeInterrupt ip InterruptAt.duringLlm r2.1 evs4
        let s6 := { r5.1 with history := getLLMResponseHist r5.1.history t o.llmResponse }
        let evs6 := r5.2 ++ [Ev.responseEv o.llmResponse]
        let r7 := maybeInterrupt ip InterruptAt.duringTts s6 evs6
        ({ r7.1 with isProcessing := false },
          (r7.2 ++ streamTTSEvents o.llmResponse) ++ [Ev.completeEv])

/-- `processBufferedAudio()` (no interrupt schedule is needed by the
claims): guard on `isProcessing` or an empty buffer; merge and clear the
buffer; STT; a falsy transcript returns silently; emit `transcript`; then
either the streaming path (`streamLLMResponse`) or `getLLMResponse` +
`response` + `streamTTS`.  The third component records whether the merged
segment was handed to transcription. -/
def processBufferedAudioRun (s0 : AgentState) (o : RunOracle) :
    AgentState × List Ev × Bool :=
  if s0.isProcessing ∨ s0.audioBuffer = [] then (s0, [], false)
  else
    let s1 := { s0 with isProcessing := true, audioBuffer := [] }
    let stt := speechToTextRun s0.config.sttProvider o.stt
    match stt.1 with
    | none => ({ s1 with isProcessing := false }, stt.2.2, true)
    | some t =>
      if t = [] then ({ s1 with isProcessing := false }, stt.2.2, true)
      else
        let evs := stt.2.2 ++ [Ev.transcriptEv t]
        if s0.config.streamResponse then
          let r := streamLLMResponseRun s0.config.llmProvider s1.history t o.llmChunks
          ({ s1 with history := r.1, isProcessing := false }, evs ++ r.2, true)
        else
          let hist := getLLMResponseHist s1.history t o.llmResponse
          ({ s1 with history := hist, isProcessing := false },
            (evs ++ [Ev.responseEv o.llmResponse]) ++ streamTTSEvents o.llmResponse,
            true)

/-- `calculateEnergy(chunk) > 0.01` of the silence VAD:
`sqrt(sumOfSquares/len) > 0.01  ↔  sumOfSquares * 10000 > len` for
`len > 0`; for an empty chunk the JS comparison is `NaN > 0.01 = false`,
matching `0 > 0 = false` here. -/
def energyGtSilence (chunk : List ℚ) : Bool :=
  decide ((chunk.map fun x => x * x).sum * 10000 > (chunk.length : ℚ))

/-- `processContinuousAudio(audioChunk)`: push the chunk; on speech clear
any pending silence timer; on silence arm the timer when none is pending
and the buffer is nonempty. -/
def processContinuousAudio (s : AgentState) (chunk : List ℚ) : AgentState :=
  let buffer := s.audioBuffer ++ [chunk]
  if energyGtSilence chunk then
    { s with audioBuffer := buffer, silenceTimer := false }
  else if s.silenceTimer = false ∧ buffer ≠ [] then
    { s with audioBuffer := buffer, silenceTimer := true }
  else
    { s with audioBuffer := buffer }

/-- The 1-second silence timer firing: run `processBufferedAudio` (the
source callback does not null out `silenceTimer`, so the stale handle is
kept). -/
def fireSilenceTimer (s : AgentState) (o : RunOracle) :
    AgentState × List Ev × Bool :=
  if s.silenceTimer then processBufferedAudioRun s o else (s, [], false)

/-! ## VAD calibration (`enhanced-agent.ts`) -/

/-- The calibration outputs of the `VoiceActivityDetector`. -/
structure VadCalib where
  noiseFloor : ℚ
  energyThreshold : ℚ
  silenceThreshold : ℚ
deriving DecidableEq, Repr

/-- `calculateNoiseFloor()`: with no samples keep the previous values;
otherwise sort the samples ascending, take the entry at
`Math.floor(length * 0.75)` (exactly `3 * length / 4` in natural division,
since 0.75 is an exact binary float) as the noise floor, and derive
`energyThreshold = max(noiseFloor * 2, 0.02)`,
`silenceThreshold = max(noiseFloor * 1.5, 0.01)`. -/
def calculateNoiseFloor (prev : VadCalib) (samples : List ℚ) : VadCalib :=
  if samples.length = 0 then prev
  else
    let sorted := samples.insertionSort (· ≤ ·)
    let nf := sorted.getD (3 * samples.length / 4) 0
    { noiseFloor := nf
      energyThreshold := max (nf * 2) (2/100)
      silenceThreshold := max (nf * 3/2) (1/100) }

/-! ## Helper lemmas -/

lemma mem_dropWhile_of_neg {p : Char → Bool} {c : Char} (hc : p c = false) :
    ∀ {l : List Char}, c ∈ l → c ∈ l.dropWhile p := by
  intro l hl
  induction l with
  | nil => cases hl
  | cons a as ih =>
    rw [List.dropWhile_cons]
    by_cases ha : p a = true
    · simp only [ha, if_true]
      rcases List.mem_cons.mp hl with rfl | h
      · rw [hc] at ha; cases ha
      · exact ih h
    · simp only [ha, if_false]
      exact hl

lemma mem_jsTrim_of_neg {c : Char} (hc : isJsWs c = false) {l : List Char}
    (hl : c ∈ l) : c ∈ jsTrim l := by
  unfold jsTrim
  apply List.mem_reverse.mpr
  apply mem_dropWhile_of_neg hc
  apply List.mem_reverse.mpr
  exact mem_dropWhile_of_neg hc hl

lemma jsTrim_eq_nil_of_all_ws {l : List Char} (h : ∀ c ∈ l, isJsWs c = true) :
    jsTrim l = [] := by
  unfold jsTrim
  have h1 : l.dropWhile isJsWs = [] := List.dropWhile_eq_nil_iff.mpr h
  simp [h1]

lemma jsTrim_ne_nil_of_ne_nil {l : List Char} (h : jsTrim l ≠ []) :
    jsTrim (jsTrim l) ≠ [] := by
  have hex : ∃ c ∈ l, isJsWs c = false := by
    by_contra hall
    push_neg at hall
    exact h (jsTrim_eq_nil_of_all_ws (fun c hc => by
      have := hall c hc
      revert this
      cases isJsWs c <;> simp))
  rcases hex with ⟨c, hcl, hcw⟩
  have h1 : c ∈ jsTrim l := mem_jsTrim_of_neg hcw hcl
  have h2 : c ∈ jsTrim (jsTrim l) := mem_jsTrim_of_neg hcw h1
  intro hnil
  rw [hnil] at h2
  cases h2

lemma trimHistory_eq_drop (l : List Turn) :
    trimHistory l = l.drop (l.length - 20) := by
  unfold trimHistory
  by_cases h : l.length > 20
  · simp [h]
  · have : l.length - 20 = 0 := by omega
    simp [h, this]

lemma runStream_fst (chunks : List (List Char)) :
    ∀ full buffer, (runStream full buffer chunks).1 = full ++ chunks.flatten := by
  induction chunks with
  | nil => intro full buffer; simp [runStream]
  | cons c cs ih =>
    intro full buffer
    rw [runStream]
    by_cases h : hasBoundary (buffer ++ c) = true
    · simp [h, ih]
    · simp [h, ih]

lemma audioTexts_nil : audioTexts [] = [] := rfl

lemma audioTexts_partialEv (c : List Char) (l : List Ev) :
    audioTexts (Ev.partialEv c :: l) = audioTexts l := rfl

lemma audioTexts_append (a b : List Ev) :
    audioTexts (a ++ b) = audioTexts a ++ audioTexts b := by
  unfold audioTexts
  exact List.filterMap_append a b _

lemma audioTexts_streamTTSEvents (t : List Char) :
    audioTexts (streamTTSEvents t) = if jsTrim t = [] then [] else [t] := by
  unfold streamTTSEvents
  by_cases hj : jsTrim t = [] <;> simp [hj, audioTexts]

lemma audioTexts_runStream (chunks : List (List Char)) :
    ∀ full buffer,
      audioTexts (runStream full buffer chunks).2 = sentenceFlushes buffer chunks := by
  induction chunks with
  | nil =>
    intro full buffer
    rw [runStream, sentenceFlushes]
    by_cases hb : buffer = []
    · subst hb
      simp [audioTexts_streamTTSEvents, audioTexts_nil, jsTrim]
    · simp [hb, audioTexts_streamTTSEvents]
  | cons c cs ih =>
    intro full buffer
    rw [runStream, sentenceFlushes]
    by_cases h : hasBoundary (buffer ++ c) = true
    · simp only [h, if_true]
      rw [audioTexts_partialEv, audioTexts_append, audioTexts_streamTTSEvents, ih]
    · simp only [h, if_false, Bool.false_eq_true]
      rw [audioTexts_partialEv, ih]

lemma processContinuousAudio_isProcessing (s : AgentState) (c : List ℚ) :
    (processContinuousAudio s c).isProcessing = s.isProcessing := by
  unfold processContinuousAudio
  dsimp only
  split_ifs <;> rfl

lemma processContinuousAudio_config (s : AgentState) (c : List ℚ) :
    (processContinuousAudio s c).config = s.config := by
  unfold processContinuousAudio
  dsimp only
  split_ifs <;> rfl

lemma foldPCA_isProcessing (chunks : List (List ℚ)) :
    ∀ s : AgentState,
      (chunks.foldl processContinuousAudio s).isProcessing = s.isProcessing := by
  induction chunks with
  | nil => intro s; rfl
  | cons c cs ih =>
    intro s
    rw [List.foldl_cons, ih, processContinuousAudio_isProcessing]

lemma foldPCA_config (chunks : List (List ℚ)) :
    ∀ s : AgentState, (chunks.foldl processContinuousAudio s).config = s.config := by
  induction chunks with
  | nil => intro s; rfl
  | cons c cs ih =>
    intro s
    rw [List.foldl_cons, ih, processContinuousAudio_config]

lemma silent_fold (chunks : List (List ℚ))
    (hs : ∀ c ∈ chunks, energyGtSilence c = false) :
    ∀ s : AgentState, s.silenceTimer = true →
      (chunks.foldl processContinuousAudio s).silenceTimer = true ∧
      (chunks.foldl processContinuousAudio s).audioBuffer = s.audioBuffer ++ chunks := by
  induction chunks with
  | nil => intro s ht; simp [ht]
  | cons c cs ih =>
    intro s ht
    have hc : energyGtSilence c = false := hs c (List.mem_cons_self c cs)
    have hstep : processContinuousAudio s c
        = { s with audioBuffer := s.audioBuffer ++ [c] } := by
      unfold processContinuousAudio
      simp [hc, ht]
    rw [List.foldl_cons, hstep]
    have := ih (fun d hd => hs d (List.mem_cons_of_mem c hd))
      { s with audioBuffer := s.audioBuffer ++ [c] } ht
    rcases this with ⟨h1, h2⟩
    refine ⟨h1, ?_⟩
    rw [h2]
    simp

/-! ## Claim C1 -/

/-- Twenty turns already in the history. -/
def turn20 : List Turn := List.replicate 20 ⟨Role.user, "x".data⟩

/-- Claim C1 fails as stated: a streaming run (`streamLLMResponse` +
`streamOpenAIResponse`) on a session whose history already holds 20 turns
leaves the history at 22 turns — the streaming paths append the user and
assistant turns without any trimming. -/
theorem c1_counterexample :
    turn20.length = 20 ∧
    ((streamLLMResponseRun Provider.openai turn20 "hi".data
        ["Ok.".data]).1).length = 22 := by decide

/-- Claim C1 (amended): only `getLLMResponse` maintains the 20-turn bound —
after it the history length is `min (previous + 2) 20` and the kept turns
are exactly the most recent 20 (oldest dropped first); the streaming
operations (`streamOpenAIResponse`/`streamGroqResponse`, reached through
`streamLLMResponse`) append both turns without trimming, so the history
grows by 2 regardless of the bound. -/
theorem c1_amended (h : List Turn) (input resp : List Char)
    (chunks : List (List Char)) (p : Provider) :
    (getLLMResponseHist h input resp).length = min (h.length + 2) 20 ∧
    getLLMResponseHist h input resp =
      ((h ++ [Turn.mk Role.user input]) ++ [Turn.mk Role.assistant resp]).drop
        (h.length + 2 - 20) ∧
    ((streamLLMResponseRun p h input chunks).1).length = h.length + 2 := by
  refine ⟨?_, ?_, ?_⟩
  · unfold getLLMResponseHist
    rw [trimHistory_eq_drop]
    simp only [List.length_drop, List.length_append, List.length_singleton]
    omega
  · unfold getLLMResponseHist
    rw [trimHistory_eq_drop]
    simp only [List.length_append, List.length_singleton]
  · cases p <;>
      simp [streamLLMResponseRun, streamOpenAIResponseRun, streamGroqResponseRun]

/-! ## Claim C3 -/

/-- Claim C3 fails as stated in its second half: in a streaming run the
`audio` event of each sentence is emitted before the `response` event that
carries its text (the `response` event is the last event of the run).
Here the first `audio` event sits at index 1 while the `response` event
sits at index 4. -/
theorem c3_counterexample :
    (streamLLMResponseRun Provider.openai [] "q".data
        ["Hi. ".data, "Yo.".data]).2 =
      [Ev.partialEv "Hi. ".data, Ev.audioEv "Hi. ".data,
       Ev.partialEv "Yo.".data, Ev.audioEv "Yo.".data,
       Ev.responseEv "Hi. Yo.".data] ∧
    (streamLLMResponseRun Provider.openai [] "q".data
        ["Hi. ".data, "Yo.".data]).2.get? 1 = some (Ev.audioEv "Hi. ".data) ∧
    (streamLLMResponseRun Provider.openai [] "q".data
        ["Hi. ".data, "Yo.".data]).2.get? 4 =
      some (Ev.responseEv "Hi. Yo.".data) := by decide

/-- Claim C3 (amended): for every streaming run, the `audio` events are
emitted exactly in sentence-completion order — their source texts equal the
sentence segmentation of the chunk stream (each per-sentence synthesis is
awaited before the loop continues, so no reordering is possible) — and the
`response` event carrying the full text is the last event of the run, i.e.
it follows (rather than precedes) every `audio` event. -/
theorem c3_amended (p : Provider) (h : List Turn) (input : List Char)
    (chunks : List (List Char)) :
    audioTexts (streamLLMResponseRun p h input chunks).2
      = sentenceFlushes [] chunks ∧
    (streamLLMResponseRun p h input chunks).2.getLast?
      = some (Ev.responseEv chunks.flatten) := by
  have heq : streamLLMResponseRun p h input chunks
      = streamOpenAIResponseRun (h ++ [Turn.mk Role.user input]) chunks := by
    cases p <;> rfl
  rw [heq]
  unfold streamOpenAIResponseRun
  dsimp only
  constructor
  · rw [audioTexts_append, audioTexts_runStream]
    simp [audioTexts]
  · rw [runStream_fst]
    simp

/-! ## Claim C2 -/

/-- A fresh idle agent with the constructor defaults. -/
def c2state : AgentState := initialState defaultConfig

/-- Oracle of a run transcribing "hi" and answering "ok.". -/
def c2oracle : RunOracle :=
  { stt := { openaiStt := some "hi".data, groqStt := none }
    llmResponse := "ok.".data
    llmChunks := [] }

/-- Claim C2 fails as stated: interrupting a `processAudioFile` run during
the generation stage emits the `interrupted` event (index 1), but the run —
which never consults the interrupt flag between stages — still emits the
`response`, `audio` and `complete` events for the interrupted run
afterwards. -/
theorem c2_counterexample :
    (processAudioFileRun c2state c2oracle InterruptAt.duringLlm).2 =
      [Ev.transcriptEv "hi".data, Ev.interruptedEv, Ev.responseEv "ok.".data,
       Ev.audioEv "ok.".data, Ev.completeEv] ∧
    Ev.audioEv "ok.".data
      ∈ ((processAudioFileRun c2state c2oracle InterruptAt.duringLlm).2).drop 2 ∧
    Ev.completeEv
      ∈ ((processAudioFileRun c2state c2oracle InterruptAt.duringLlm).2).drop 2 := by
  decide

/-- Claim C2 (amended): interrupting a run during the generation or the
synthesis stage emits exactly one `interrupted` event and clears the
buffered audio, but in-flight stage results are NOT discarded: the run
still emits its `audio` and `complete` events after the interrupt. -/
theorem c2_amended (s : AgentState) (o : RunOracle) (ip : InterruptAt)
    (t : List Char)
    (hproc : s.isProcessing = false)
    (hprov : s.config.sttProvider = Provider.openai)
    (hstt : o.stt.openaiStt = some t)
    (ht : jsTrim t ≠ [])
    (hresp : jsTrim o.llmResponse ≠ [])
    (hip : ip = InterruptAt.duringLlm ∨ ip = InterruptAt.duringTts) :
    ((processAudioFileRun s o ip).2).count Ev.interruptedEv = 1 ∧
    (processAudioFileRun s o ip).1.audioBuffer = [] ∧
    Ev.audioEv o.llmResponse ∈ (processAudioFileRun s o ip).2 ∧
    Ev.completeEv ∈ (processAudioFileRun s o ip).2 := by
  have hstt2 : speechToTextRun s.config.sttProvider o.stt
      = (some (jsTrim t), [Backend.openai], []) := by
    rw [hprov]
    simp [speechToTextRun, openaiSTTRun, hstt]
  have ht2 : ¬ jsTrim (jsTrim t) = [] := jsTrim_ne_nil_of_ne_nil ht
  have htts : streamTTSEvents o.llmResponse = [Ev.audioEv o.llmResponse] := by
    simp [streamTTSEvents, hresp]
  rcases hip with rfl | rfl <;>
    simp [processAudioFileRun, hproc, hstt2, ht2, maybeInterrupt, interruptStep,
      htts, List.count_append, List.count_cons]

/-- Witness for the amended C2: the concrete interrupted run during the
synthesis stage. -/
theorem c2_amended_witness :
    ((processAudioFileRun c2state c2oracle InterruptAt.duringTts).2).count
        Ev.interruptedEv = 1 ∧
    (processAudioFileRun c2state c2oracle InterruptAt.duringTts).1.audioBuffer
      = [] ∧
    Ev.audioEv "ok.".data
      ∈ (processAudioFileRun c2state c2oracle InterruptAt.duringTts).2 ∧
    Ev.completeEv ∈ (processAudioFileRun c2state c2oracle InterruptAt.duringTts).2 :=
  c2_amended c2state c2oracle InterruptAt.duringTts "hi".data
    (by decide) (by decide) (by decide) (by decide) (by decide) (Or.inr rfl)

/-! ## Claim C6 -/

/-- Claim C6: when the STT backend succeeds but returns an empty or
whitespace-only transcript, `processAudioFile` emits exactly one
"no speech detected" `error` event and nothing else, leaves the
conversation history untouched, and returns to the idle (not-processing)
state. -/
theorem c6_confirmed (s : AgentState) (o : RunOracle) (t : List Char)
    (hproc : s.isProcessing = false)
    (hprov : s.config.sttProvider = Provider.openai)
    (hstt : o.stt.openaiStt = some t)
    (ht : ∀ c ∈ t, isJsWs c = true) :
    (processAudioFileRun s o InterruptAt.never).2 = [Ev.errorEv noSpeechMsg] ∧
    (processAudioFileRun s o InterruptAt.never).1.history = s.history ∧
    (processAudioFileRun s o InterruptAt.never).1.isProcessing = false := by
  have hstt2 : speechToTextRun s.config.sttProvider o.stt
      = (some (jsTrim t), [Backend.openai], []) := by
    rw [hprov]
    simp [speechToTextRun, openaiSTTRun, hstt]
  have ht2 : jsTrim t = [] := jsTrim_eq_nil_of_all_ws ht
  have ht3 : jsTrim (jsTrim t) = [] := by rw [ht2]; rfl
  simp [processAudioFileRun, hproc, hstt2, ht3, maybeInterrupt]

/-- Witness for C6: a run whose transcript is two spaces. -/
theorem c6_confirmed_witness :
    (processAudioFileRun c2state
        { stt := { openaiStt := some "  ".data, groqStt := none }
          llmResponse := [], llmChunks := [] } InterruptAt.never).2
      = [Ev.errorEv noSpeechMsg] ∧
    (processAudioFileRun c2state
        { stt := { openaiStt := some "  ".data, groqStt := none }
          llmResponse := [], llmChunks := [] } InterruptAt.never).1.history
      = c2state.history ∧
    (processAudioFileRun c2state
        { stt := { openaiStt := some "  ".data, groqStt := none }
          llmResponse := [], llmChunks := [] } InterruptAt.never).1.isProcessing
      = false :=
  c6_confirmed c2state
    { stt := { openaiStt := some "  ".data, groqStt := none }
      llmResponse := [], llmChunks := [] } "  ".data
    (by decide) (by decide) (by decide) (by decide)

/-! ## Claim C9 -/

/-- Claim C9: the single-flight guard — a call to `processAudioFile` or
`processBufferedAudio` made while a run is already in progress
(`isProcessing = true`) is a complete no-op: the state is unchanged, no
event is emitted, and no segment is handed to transcription, so a second
run can never enter a non-idle stage concurrently with the first. -/
theorem c9_confirmed (s : AgentState) (o : RunOracle) (ip : InterruptAt)
    (h : s.isProcessing = true) :
    processAudioFileRun s o ip = (s, []) ∧
    processBufferedAudioRun s o = (s, [], false) := by
  constructor
  · simp [processAudioFileRun, h]
  · simp [processBufferedAudioRun, h]

/-- A state with a run in flight. -/
def busyState : AgentState :=
  { initialState defaultConfig with isProcessing := true }

/-- Witness for C9: the guard at a concrete busy state. -/
theorem c9_confirmed_witness :
    processAudioFileRun busyState c2oracle InterruptAt.never = (busyState, []) ∧
    processBufferedAudioRun busyState c2oracle = (busyState, [], false) :=
  c9_confirmed busyState c2oracle InterruptAt.never rfl

/-! ## Claim C4 -/

/-- A config requesting the `alloy` voice at normal speed. -/
def c4cfg : Config :=
  { defaultConfig with ttsVoice := Voice.alloy, ttsSpeed := 1 }

/-- One Arabic letter (U+0627) followed by nine Latin letters: Arabic
ratio 10%, well below the 30% bound. -/
def c4text : List Char := Char.ofNat 0x627 :: "abcdefghi".data

/-- Claim C4 fails as stated: `streamTTS` keys the override on the mere
presence of an Arabic character (`arabicPattern.test`), not on the 30%
ratio — a text whose Arabic ratio is only 10% (which `detectLanguage`
classifies as English) still gets the `nova` voice and 0.85 speed instead
of the requested `alloy` voice at speed 1. -/
theorem c4_counterexample :
    detectLanguage c4text = Lang.en ∧
    ((c4text.filter isArabicChar).length : ℚ) / (c4text.length : ℚ) ≤ 3/10 ∧
    streamTTSVoice c4cfg c4text = Voice.nova ∧
    c4cfg.ttsVoice = Voice.alloy ∧
    streamTTSSpeed c4cfg c4text = 85/100 ∧
    c4cfg.ttsSpeed = 1 := by
  have hfil : (c4text.filter isArabicChar).length = 1 := by decide
  have hlen : c4text.length = 10 := by decide
  have hhas : hasArabicText c4text = true := by decide
  refine ⟨?_, ?_, ?_, rfl, ?_, rfl⟩
  · unfold detectLanguage
    rw [hfil, hlen]
    norm_num
  · rw [hfil, hlen]
    norm_num
  · simp [streamTTSVoice, hhas]
  · simp [streamTTSSpeed, hhas]

/-- Claim C4 (amended): the script-specific voice/speed override
(`nova`, speed 0.85) is applied if and only if the text contains at least
one Arabic-script character; the 30% ratio only governs the transcript
language detection (`detectLanguage`), not the TTS override.  In
particular, every text with no Arabic character keeps the requested voice
and speed and is classified as English by the ratio rule, so the code's
override condition is strictly weaker than the spec's ratio condition. -/
theorem c4_amended (cfg : Config) (t : List Char) :
    (hasArabicText t = true →
      streamTTSVoice cfg t = Voice.nova ∧ streamTTSSpeed cfg t = 85/100) ∧
    (hasArabicText t = false →
      streamTTSVoice cfg t = cfg.ttsVoice ∧ streamTTSSpeed cfg t = cfg.ttsSpeed ∧
      detectLanguage t = Lang.en) := by
  constructor
  · intro hh
    exact ⟨by simp [streamTTSVoice, hh], by simp [streamTTSSpeed, hh]⟩
  · intro hh
    have hall : ∀ c ∈ t, ¬ isArabicChar c = true := by
      unfold hasArabicText at hh
      exact List.any_eq_false.mp hh
    have hfil : (t.filter isArabicChar).length = 0 := by
      rw [List.length_eq_zero]
      exact List.filter_eq_nil_iff.mpr hall
    refine ⟨by simp [streamTTSVoice, hh], by simp [streamTTSSpeed, hh], ?_⟩
    unfold detectLanguage
    rw [hfil]
    simp

/-- One Arabic letter on its own (ratio 100%). -/
def arabicOnly : List Char := [Char.ofNat 0x645]

/-- Witness for the amended C4 at a fully-Arabic and a fully-Latin text. -/
theorem c4_amended_witness :
    (streamTTSVoice c4cfg arabicOnly = Voice.nova ∧
     streamTTSSpeed c4cfg arabicOnly = 85/100) ∧
    (streamTTSVoice c4cfg "hello".data = c4cfg.ttsVoice ∧
     streamTTSSpeed c4cfg "hello".data = c4cfg.ttsSpeed ∧
     detectLanguage "hello".data = Lang.en) :=
  ⟨(c4_amended c4cfg arabicOnly).1 (by decide),
   (c4_amended c4cfg "hello".data).2 (by decide)⟩

/-! ## Claim C5 -/

/-- Two all-zero (silent) audio chunks. -/
def silentChunks : List (List ℚ) := [[0, 0, 0, 0], [0, 0, 0, 0]]

/-- Oracle: the backend transcribes the silent audio to the empty string. -/
def c5oracle : RunOracle :=
  { stt := { openaiStt := some [], groqStt := none }
    llmResponse := []
    llmChunks := [] }

/-- Claim C5 fails as stated: with only silent chunks and no prior speech,
the silence timer is still armed and its firing hands the merged buffer to
transcription (`processBufferedAudio` calls `speechToText`) — there is no
speech-confirmation gate. -/
theorem c5_counterexample :
    (∀ c ∈ silentChunks, energyGtSilence c = false) ∧
    (fireSilenceTimer
        (silentChunks.foldl processContinuousAudio (initialState defaultConfig))
        c5oracle).2.2 = true := by
  have hz : energyGtSilence ([0, 0, 0, 0] : List ℚ) = false := by
    simp [energyGtSilence]
  constructor
  · intro c hc
    simp only [silentChunks, List.mem_cons, List.not_mem_nil, or_false] at hc
    rcases hc with rfl | rfl <;> exact hz
  · simp [silentChunks, processContinuousAudio, hz, initialState, defaultConfig,
      fireSilenceTimer, processBufferedAudioRun, speechToTextRun, openaiSTTRun,
      c5oracle, jsTrim]

/-- Claim C5 (amended): for any nonempty all-silent input the segmenter
arms the 1-second silence timer and keeps buffering; when the timer fires,
the buffered audio is merged, the buffer cleared, and transcription IS
attempted.  Only because the transcript of silence comes back empty does
the run end with no events and return to the not-processing state. -/
theorem c5_amended (cfg : Config) (chunks : List (List ℚ)) (o : RunOracle)
    (t : List Char)
    (hne : chunks ≠ [])
    (hs : ∀ c ∈ chunks, energyGtSilence c = false)
    (hprov : cfg.sttProvider = Provider.openai)
    (hstt : o.stt.openaiStt = some t)
    (ht : ∀ c ∈ t, isJsWs c = true) :
    (chunks.foldl processContinuousAudio (initialState cfg)).silenceTimer
      = true ∧
    (chunks.foldl processContinuousAudio (initialState cfg)).audioBuffer
      = chunks ∧
    (fireSilenceTimer (chunks.foldl processContinuousAudio (initialState cfg))
        o).2.2 = true ∧
    (fireSilenceTimer (chunks.foldl processContinuousAudio (initialState cfg))
        o).1.audioBuffer = [] ∧
    (fireSilenceTimer (chunks.foldl processContinuousAudio (initialState cfg))
        o).2.1 = [] ∧
    (fireSilenceTimer (chunks.foldl processContinuousAudio (initialState cfg))
        o).1.isProcessing = false := by
  obtain ⟨c, cs, rfl⟩ := List.exists_cons_of_ne_nil hne
  have hc : energyGtSilence c = false := hs c (List.mem_cons_self c cs)
  have hstep : processContinuousAudio (initialState cfg) c
      = { initialState cfg with audioBuffer := [c], silenceTimer := true } := by
    unfold processContinuousAudio initialState
    simp [hc]
  rw [List.foldl_cons, hstep]
  obtain ⟨htimer, hbuf⟩ := silent_fold cs
    (fun d hd => hs d (List.mem_cons_of_mem c hd))
    { initialState cfg with audioBuffer := [c], silenceTimer := true } rfl
  have hproc1 : (cs.foldl processContinuousAudio
      { initialState cfg with audioBuffer := [c], silenceTimer := true }).isProcessing
      = false := by
    rw [foldPCA_isProcessing]
    rfl
  have hcfg1 : (cs.foldl processContinuousAudio
      { initialState cfg with audioBuffer := [c], silenceTimer := true }).config
      = cfg := by
    rw [foldPCA_config]
    rfl
  have hstt2 : speechToTextRun cfg.sttProvider o.stt
      = (some (jsTrim t), [Backend.openai], []) := by
    rw [hprov]
    simp [speechToTextRun, openaiSTTRun, hstt]
  have htnil : jsTrim t = [] := jsTrim_eq_nil_of_all_ws ht
  have hbne : (cs.foldl processContinuousAudio
      { initialState cfg with audioBuffer := [c], silenceTimer := true }).audioBuffer
      ≠ [] := by
    rw [hbuf]
    simp
  refine ⟨htimer, by rw [hbuf]; rfl, ?_, ?_, ?_, ?_⟩ <;>
    simp [fireSilenceTimer, htimer, processBufferedAudioRun, hproc1, hbne,
      hcfg1, hstt2, htnil]

/-- Witness for the amended C5: one silent (empty) chunk whose transcript
is empty. -/
theorem c5_amended_witness :
    (([([] : List ℚ)]).foldl processContinuousAudio
        (initialState defaultConfig)).silenceTimer = true ∧
    (([([] : List ℚ)]).foldl processContinuousAudio
        (initialState defaultConfig)).audioBuffer = [([] : List ℚ)] ∧
    (fireSilenceTimer (([([] : List ℚ)]).foldl processContinuousAudio
        (initialState defaultConfig)) c5oracle).2.2 = true ∧
    (fireSilenceTimer (([([] : List ℚ)]).foldl processContinuousAudio
        (initialState defaultConfig)) c5oracle).1.audioBuffer = [] ∧
    (fireSilenceTimer (([([] : List ℚ)]).foldl processContinuousAudio
        (initialState defaultConfig)) c5oracle).2.1 = [] ∧
    (fireSilenceTimer (([([] : List ℚ)]).foldl processContinuousAudio
        (initialState defaultConfig)) c5oracle).1.isProcessing = false :=
  c5_amended defaultConfig [([] : List ℚ)] c5oracle []
    (by simp)
    (fun c hc => by
      rw [List.mem_singleton] at hc
      subst hc
      simp [energyGtSilence])
    (by decide) (by decide) (by decide)

/-! ## Claim C7 -/

/-- Claim C7 fails as stated: when OpenAI is the configured primary STT
backend (which is the constructor default) and it fails, `speechToText`
surfaces the failure immediately — the backend-attempt list is just
`[openai]`, with no fallback retry at all. -/
theorem c7_counterexample :
    (speechToTextRun Provider.openai
        { openaiStt := none, groqStt := some "x".data }).2.1
      = [Backend.openai] ∧
    (speechToTextRun Provider.openai
        { openaiStt := none, groqStt := some "x".data }).1 = none ∧
    (speechToTextRun Provider.openai
        { openaiStt := none, groqStt := some "x".data }).2.2
      = [Ev.errorEv sttFailMsg] ∧
    Backend.groq ∉ (speechToTextRun Provider.openai
        { openaiStt := none, groqStt := some "x".data }).2.1 := by
  decide

/-- Claim C7 (amended): the single fallback retry exists only in the Groq
adapter — a Groq primary failure triggers exactly one OpenAI fallback
attempt; an OpenAI primary failure surfaces immediately (one `error`
event, no fallback); and no path ever makes more than two backend
attempts. -/
theorem c7_amended (o : SttOracle) :
    ((speechToTextRun Provider.groq o).2.1.length ≤ 2 ∧
     (speechToTextRun Provider.openai o).2.1.length ≤ 2) ∧
    (o.groqStt = none →
      (speechToTextRun Provider.groq o).2.1 = [Backend.groq, Backend.openai]) ∧
    (o.openaiStt = none →
      (speechToTextRun Provider.openai o).2.1 = [Backend.openai] ∧
      (speechToTextRun Provider.openai o).1 = none ∧
      (speechToTextRun Provider.openai o).2.2 = [Ev.errorEv sttFailMsg]) := by
  rcases hg : o.groqStt with _ | tg <;> rcases ho : o.openaiStt with _ | t2 <;>
    simp [speechToTextRun, groqSTTRun, openaiSTTRun, hg, ho]

/-- An oracle where both backends fail. -/
def c7oracle : SttOracle := { openaiStt := none, groqStt := none }

/-- Witness for the amended C7 at an oracle where both backends fail. -/
theorem c7_amended_witness :
    (speechToTextRun Provider.groq c7oracle).2.1
      = [Backend.groq, Backend.openai] ∧
    ((speechToTextRun Provider.openai c7oracle).2.1 = [Backend.openai] ∧
     (speechToTextRun Provider.openai c7oracle).1 = none ∧
     (speechToTextRun Provider.openai c7oracle).2.2 = [Ev.errorEv sttFailMsg]) :=
  ⟨(c7_amended c7oracle).2.1 rfl, (c7_amended c7oracle).2.2 rfl⟩

/-! ## Claim C8 -/

/-- The Arabic word U+0645 U+0631 U+062D U+0628 U+0627 followed by a
period — a text already ending in terminal punctuation. -/
def marhabaDot : List Char :=
  [Char.ofNat 0x645, Char.ofNat 0x631, Char.ofNat 0x62D, Char.ofNat 0x628,
   Char.ofNat 0x627, '.']

/-- Claim C8 is right and the code is wrong: `streamTTS` tests the
punctuation pattern on the already-wrapped string, whose last character is
always U+202C, so the test never matches and a '.' is appended even when
the original text already ends in terminal punctuation (and the appended
'.' lands outside the U+202C mark).  The input here ends in '.', yet the
string handed to the backend is U+202B ++ text ++ U+202C ++ '.'. -/
theorem c8_code_bug :
    hasArabicText marhabaDot = true ∧
    endsInTerminalTTS marhabaDot = true ∧
    streamTTSProcessText marhabaDot =
      Char.ofNat 0x202B :: (marhabaDot ++ [Char.ofNat 0x202C, '.']) := by
  decide

/-! ## Claim C10 -/

/-- Claim C10: after a calibration with a nonempty sample list, the noise
floor is the entry of the ascending sorted sample list at index
`⌊0.75 · n⌋` (in particular it is one of the samples), the energy threshold
is `max (2 · noiseFloor) 0.02` and the silence threshold is
`max (1.5 · noiseFloor) 0.01`. -/
theorem c10_confirmed (prev : VadCalib) (samples : List ℚ) (h : samples ≠ []) :
    (∃ sorted : List ℚ, sorted.Perm samples ∧ sorted.Sorted (· ≤ ·) ∧
      (calculateNoiseFloor prev samples).noiseFloor
        = sorted.getD (3 * samples.length / 4) 0) ∧
    (calculateNoiseFloor prev samples).noiseFloor ∈ samples ∧
    (calculateNoiseFloor prev samples).energyThreshold
      = max ((calculateNoiseFloor prev samples).noiseFloor * 2) (2/100) ∧
    (calculateNoiseFloor prev samples).silenceThreshold
      = max ((calculateNoiseFloor prev samples).noiseFloor * 3/2) (1/100) := by
  have hlen : ¬ samples.length = 0 := by
    simpa [List.length_eq_zero] using h
  have hcalc : calculateNoiseFloor prev samples =
      { noiseFloor :=
          (samples.insertionSort (· ≤ ·)).getD (3 * samples.length / 4) 0
        energyThreshold :=
          max ((samples.insertionSort (· ≤ ·)).getD (3 * samples.length / 4) 0 * 2)
            (2/100)
        silenceThreshold :=
          max ((samples.insertionSort (· ≤ ·)).getD (3 * samples.length / 4) 0 * 3/2)
            (1/100) } := by
    unfold calculateNoiseFloor
    simp [hlen]
  rw [hcalc]
  have hperm : (samples.insertionSort (· ≤ ·)).Perm samples :=
    List.perm_insertionSort _ _
  have hsorted : (samples.insertionSort (· ≤ ·)).Sorted (· ≤ ·) :=
    List.sorted_insertionSort _ _
  have hlt : 3 * samples.length / 4 < (samples.insertionSort (· ≤ ·)).length := by
    rw [List.length_insertionSort]
    have hpos : 0 < samples.length := Nat.pos_of_ne_zero hlen
    omega
  have hmem : (samples.insertionSort (· ≤ ·)).getD (3 * samples.length / 4) 0
      ∈ samples := by
    rw [List.getD_eq_getElem _ _ hlt]
    exact hperm.mem_iff.mp (List.getElem_mem hlt)
  exact ⟨⟨_, hperm, hsorted, rfl⟩, hmem, rfl, rfl⟩

/-- Witness for C10 at the samples `[1/2, 1/4, 3/4, 1]` (sorted
`[1/4, 1/2, 3/4, 1]`, 75th-percentile index 3, noise floor 1). -/
theorem c10_confirmed_witness :
    (∃ sorted : List ℚ, sorted.Perm [1/2, 1/4, 3/4, 1] ∧
      sorted.Sorted (· ≤ ·) ∧
      (calculateNoiseFloor ⟨0, 2/100, 1/100⟩ [1/2, 1/4, 3/4, 1]).noiseFloor
        = sorted.getD (3 * ([1/2, 1/4, 3/4, (1:ℚ)]).length / 4) 0) ∧
    (calculateNoiseFloor ⟨0, 2/100, 1/100⟩ [1/2, 1/4, 3/4, 1]).noiseFloor
      ∈ [1/2, 1/4, 3/4, (1:ℚ)] ∧
    (calculateNoiseFloor ⟨0, 2/100, 1/100⟩ [1/2, 1/4, 3/4, 1]).energyThreshold
      = max ((calculateNoiseFloor ⟨0, 2/100, 1/100⟩
          [1/2, 1/4, 3/4, 1]).noiseFloor * 2) (2/100) ∧
    (calculateNoiseFloor ⟨0, 2/100, 1/100⟩ [1/2, 1/4, 3/4, 1]).silenceThreshold
      = max ((calculateNoiseFloor ⟨0, 2/100, 1/100⟩
          [1/2, 1/4, 3/4, 1]).noiseFloor * 3/2) (1/100) :=
  c10_confirmed ⟨0, 2/100, 1/100⟩ [1/2, 1/4, 3/4, 1] (by simp)

end RealtimeVoice
